import Mathlib

/-!
Shallow embedding of the flight-offer acquisition and normalization
pipeline of `flight_search_app.py` (location resolver, duration parser,
credential provider, offer search client, offer normalizer), together
with theorems settling the specification claims about it.

Python strings are modelled as Lean `String` (with `List Char` data for
character-level manipulation); floats are modelled as exact rationals
with an explicit round-to-2-decimals step; network effects are modelled
by an explicit environment record, and raised exceptions by `Except`.
-/

namespace FlightSearch

/-! ### Python string primitives -/

/-- Python whitespace test used by `str.strip()` (ASCII whitespace). -/
def pyIsSpace (c : Char) : Bool :=
  c = ' ' || c = '\t' || c = '\n' || c = '\r' || c = '\x0b' || c = '\x0c'

/-- Python `str.strip()` on character lists. -/
def pyStrip (s : List Char) : List Char :=
  ((s.dropWhile pyIsSpace).reverse.dropWhile pyIsSpace).reverse

/-- Python `str.upper()` on character lists (ASCII letters). -/
def pyUpper (s : List Char) : List Char :=
  s.map Char.toUpper

/-- Index of the last occurrence of `c`, i.e. Python `str.rfind` restricted
to the case where the character occurs; `none` models `-1` together with
the `in` containment check guarding it in the source. -/
def rfindIdx (c : Char) : List Char → Option Nat
  | [] => none
  | x :: xs =>
    match rfindIdx c xs with
    | some i => some (i + 1)
    | none => if x = c then some 0 else none

/-- Python slice `s[a:b]` for nonnegative bounds. -/
def pySlice (s : List Char) (a b : Nat) : List Char :=
  (s.take b).drop a

/-! ### Location Resolver (`extract_iata`, lines 107-120) -/

/-- `extract_iata`: if the stripped input contains both "(" and ")",
take the substring between the last "(" and the last ")"; if that
substring (stripped) has exactly 3 characters, uppercase and return it.
Otherwise fall back to the first 3 characters of the stripped,
uppercased input. -/
def extract_iata (code_or_city : String) : String :=
  let text := pyStrip code_or_city.data
  match rfindIdx '(' text, rfindIdx ')' text with
  | some start0, some endIdx =>
    let iata := pyStrip (pySlice text (start0 + 1) endIdx)
    if iata.length = 3 then ⟨pyUpper iata⟩
    else ⟨(pyUpper (pyStrip text)).take 3⟩
  | _, _ => ⟨(pyUpper (pyStrip text)).take 3⟩

/-! ### Duration Parser (`parse_duration_to_hours`, lines 80-104) -/

/-- Python `int(...)` on a run of decimal digits. -/
def digitsToNat (ds : List Char) : Nat :=
  ds.foldl (fun acc c => acc * 10 + (c.toNat - 48)) 0

/-- The character scan of `parse_duration_to_hours`: accumulate digit
runs in `num`; a digit run immediately followed by `H` (resp. `M`) sets
`hours` (resp. `minutes`); every non-digit character resets `num`. -/
def durLoop : List Char → List Char → Nat → Nat → Nat × Nat
  | [], _, hours, minutes => (hours, minutes)
  | ch :: rest, num, hours, minutes =>
    if ch.isDigit then durLoop rest (num ++ [ch]) hours minutes
    else if ch = 'H' ∧ num ≠ [] then durLoop rest [] (digitsToNat num) minutes
    else if ch = 'M' ∧ num ≠ [] then durLoop rest [] hours (digitsToNat num)
    else durLoop rest [] hours minutes

/-- Python `round(x, 2)` modelled exactly on rationals. -/
def round2 (q : ℚ) : ℚ :=
  (round (q * 100) : ℤ) / 100

/-- `parse_duration_to_hours`: `none` when the input is empty or does not
start with "PT"; otherwise scan the rest with `durLoop` and return
`round2 (hours + minutes / 60)`. -/
def parse_duration_to_hours (duration : String) : Option ℚ :=
  if duration.data = [] ∨ duration.data.take 2 ≠ ['P', 'T'] then none
  else
    let hm := durLoop (duration.data.drop 2) [] 0 0
    some (round2 ((hm.1 : ℚ) + (hm.2 : ℚ) / 60))

/-! ### Data model of the provider response (RawOffer) and the canonical
FlightOffer (lines 174-225). Fields that the source reads with
`.get(key, default)` are `Option`s, the default applied at the read. -/

structure Segment where
  carrierCode : Option String := none
  departureIataCode : Option String := none
  departureAt : Option String := none
  arrivalIataCode : Option String := none
  arrivalAt : Option String := none
deriving DecidableEq

structure Itinerary where
  duration : Option String := none
  segments : List Segment := []
deriving DecidableEq

structure PriceInfo where
  grandTotal : Option ℚ := none
  currency : Option String := none
deriving DecidableEq

structure RawOffer where
  price : PriceInfo := {}
  itineraries : List Itinerary := []
  validatingAirlineCodes : List String := []
deriving DecidableEq

structure FlightOffer where
  airline : String
  origin : String
  destination : String
  departure_time : String
  arrival_time : String
  stops : Nat
  price : ℚ
  currency : String
  duration_hours : Option ℚ
deriving DecidableEq

/-! ### Offer Normalizer (the loop body of lines 174-225) -/

/-- The body of the normalization loop for one raw offer: skip offers
with no itineraries or no segments in the first itinerary; build the
canonical record from the first itinerary; discard by the stop filter
(`max_stops = 0` drops `stops > 0`; `max_stops = 1` drops `stops > 1`). -/
def normalizeOffer (max_stops : Int) (offer : RawOffer) : Option FlightOffer :=
  match offer.itineraries with
  | [] => none
  | itinerary :: _ =>
    match itinerary.segments with
    | [] => none
    | first_seg :: restSegs =>
      let segs := first_seg :: restSegs
      let last_seg := segs.getLast (List.cons_ne_nil _ _)
      let airline :=
        match offer.validatingAirlineCodes with
        | a :: _ => a
        | [] => first_seg.carrierCode.getD "N/A"
      let stops := max (segs.length - 1) 0
      if max_stops = 0 ∧ stops > 0 then none
      else if max_stops = 1 ∧ stops > 1 then none
      else some {
        airline := airline
        origin := first_seg.departureIataCode.getD ""
        destination := last_seg.arrivalIataCode.getD ""
        departure_time := first_seg.departureAt.getD ""
        arrival_time := last_seg.arrivalAt.getD ""
        stops := stops
        price := offer.price.grandTotal.getD 0
        currency := offer.price.currency.getD "AUD"
        duration_hours := parse_duration_to_hours (itinerary.duration.getD "") }

/-- The full normalization pass over the provider's `data` array. -/
def normalize (offers : List RawOffer) (max_stops : Int) : List FlightOffer :=
  offers.filterMap (normalizeOffer max_stops)

/-! ### Exceptions, environment, Credential Provider, Search Client -/

/-- The exception classes a caller of the pipeline can observe. The
source defines the single class `AmadeusError (Exception)` and raises
only it; `otherError` stands for any distinct exception class, so that
equality with `amadeusError` is contentful. -/
inductive ExnClass where
  | amadeusError
  | otherError
deriving DecidableEq

/-- A raised Python exception: its class and its message. -/
structure PyExn where
  cls : ExnClass
  msg : String
deriving DecidableEq

/-- Outcome of one `requests` round trip: a parsed JSON body on success,
or a `requests.exceptions.RequestException` (covering transport failures
and the `raise_for_status` non-2xx error) with its text. -/
inductive NetResult (α : Type) where
  | ok (body : α)
  | requestException (msg : String)

/-- Body of the token endpoint's JSON response. -/
structure TokenResponseBody where
  access_token : Option String := none

/-- Body of the offer-search endpoint's JSON response. -/
structure SearchResponseBody where
  data : Option (List RawOffer) := none

/-- Python truthiness test for `str | None` (`not x`). -/
def pyFalsy : Option String → Bool
  | none => true
  | some s => s = ""

def configErrorMsg : String :=
  "AMADEUS_CLIENT_ID or AMADEUS_CLIENT_SECRET not set. Set them in your Windows terminal before running Streamlit."

/-- Query parameters built by `search_flights_amadeus` (lines 145-160). -/
structure SearchParams where
  originLocationCode : String
  destinationLocationCode : String
  departureDate : String
  adults : Nat
  currencyCode : String
  max : Nat
  returnDate : Option String
  nonStop : Option String
deriving DecidableEq

/-- The ambient state the pipeline reads: the two credential environment
variables and the responses of the two provider endpoints (the search
response as a function of the query it is sent). -/
structure Env where
  amadeusClientId : Option String
  amadeusClientSecret : Option String
  tokenNet : NetResult TokenResponseBody
  searchNet : SearchParams → NetResult SearchResponseBody

/-- `get_amadeus_access_token` (lines 50-77): raise `AmadeusError` when
either credential is unset (before any network call); otherwise POST to
the token endpoint, wrapping any `RequestException` in `AmadeusError`,
and raise `AmadeusError` when the body lacks a truthy `access_token`. -/
def get_amadeus_access_token (env : Env) : Except PyExn String :=
  if pyFalsy env.amadeusClientId || pyFalsy env.amadeusClientSecret then
    .error ⟨.amadeusError, configErrorMsg⟩
  else
    match env.tokenNet with
    | .requestException m =>
      .error ⟨.amadeusError, "Error getting Amadeus token: " ++ m⟩
    | .ok payload =>
      if pyFalsy payload.access_token then
        .error ⟨.amadeusError, "No access_token in response: " ++ (payload.access_token.getD "None")⟩
      else .ok (payload.access_token.getD "")

/-- The query construction of lines 145-160: `adults`, `currencyCode`
and `max` fixed; `returnDate` included when truthy and different from
`departureDate`; `nonStop := "true"` exactly when `max_stops = 0`. -/
def buildSearchParams (origin_iata dest_iata departure_date : String)
    (return_date : Option String) (max_stops : Int) : SearchParams :=
  { originLocationCode := origin_iata
    destinationLocationCode := dest_iata
    departureDate := departure_date
    adults := 1
    currencyCode := "AUD"
    max := 20
    returnDate :=
      if pyFalsy return_date = false ∧ return_date ≠ some departure_date then return_date
      else none
    nonStop := if max_stops = 0 then some "true" else none }

/-- `search_flights_amadeus` (lines 123-227): get a token, resolve both
locations, build the query, issue the GET (wrapping failures in
`AmadeusError`), and normalize the `data` array (default `[]`). -/
def search_flights_amadeus (env : Env)
    (origin_city destination_city departure_date : String)
    (return_date : Option String) (max_stops : Int) :
    Except PyExn (List FlightOffer) :=
  match get_amadeus_access_token env with
  | .error e => .error e
  | .ok _access_token =>
    let origin_iata := extract_iata origin_city
    let dest_iata := extract_iata destination_city
    let params := buildSearchParams origin_iata dest_iata departure_date return_date max_stops
    match env.searchNet params with
    | .requestException m =>
      .error ⟨.amadeusError, "Error calling Amadeus Flight Offers Search: " ++ m⟩
    | .ok body =>
      let offers := body.data.getD []
      .ok (normalize offers max_stops)

/-! ### Sample values used by witnesses -/

/-- A minimal well-formed raw offer: one itinerary with one segment and
every optional field absent. -/
def sampleRaw : RawOffer :=
  { itineraries := [{ segments := [{}] }] }

/-- The normalization of `sampleRaw`. -/
def sampleFlight : FlightOffer :=
  { airline := "N/A", origin := "", destination := "", departure_time := ""
    arrival_time := "", stops := 0, price := 0, currency := "AUD"
    duration_hours := none }

/-- A raw offer with no itineraries at all. -/
def emptyRaw : RawOffer := {}

/-- An environment with the client id unset but the network reachable. -/
def envNoCreds : Env :=
  { amadeusClientId := none
    amadeusClientSecret := some "secret"
    tokenNet := .ok { access_token := some "tok" }
    searchNet := fun _ => .ok { data := some [] } }

/-- An environment with credentials set, a token granted, and a search
response whose `data` array is empty. -/
def envEmptyData : Env :=
  { amadeusClientId := some "id"
    amadeusClientSecret := some "secret"
    tokenNet := .ok { access_token := some "tok" }
    searchNet := fun _ => .ok { data := some [] } }

/-! ### Lemmas about the duration scan -/

theorem durLoop_digit_run (ds : List Char) (hd : ∀ c ∈ ds, c.isDigit = true) :
    ∀ (rest num : List Char) (h m : Nat),
      durLoop (ds ++ rest) num h m = durLoop rest (num ++ ds) h m := by
  induction ds with
  | nil => intro rest num h m; simp
  | cons c cs ih =>
    intro rest num h m
    have hc : c.isDigit = true := hd c (by simp)
    rw [List.cons_append, durLoop, if_pos hc,
      ih (fun x hx => hd x (by simp [hx])) rest (num ++ [c])]
    simp

theorem durLoop_H (num : List Char) (hnum : num ≠ []) (rest : List Char) (h m : Nat) :
    durLoop ('H' :: rest) num h m = durLoop rest [] (digitsToNat num) m := by
  rw [durLoop, if_neg (by decide), if_pos ⟨rfl, hnum⟩]

theorem durLoop_M (num : List Char) (hnum : num ≠ []) (rest : List Char) (h m : Nat) :
    durLoop ('M' :: rest) num h m = durLoop rest [] h (digitsToNat num) := by
  rw [durLoop, if_neg (by decide), if_neg (by simp), if_pos ⟨rfl, hnum⟩]

/-! ### Lemmas about the normalizer -/

theorem normalizeOffer_stops_bound (ms : Int) (offer : RawOffer) (o : FlightOffer)
    (h : normalizeOffer ms offer = some o) :
    ¬(ms = 0 ∧ o.stops > 0) ∧ ¬(ms = 1 ∧ o.stops > 1) := by
  unfold normalizeOffer at h
  cases hit : offer.itineraries with
  | nil => rw [hit] at h; exact absurd h (by simp)
  | cons it its =>
    rw [hit] at h
    dsimp only at h
    cases hseg : it.segments with
    | nil => rw [hseg] at h; exact absurd h (by simp)
    | cons fs rs =>
      rw [hseg] at h
      dsimp only at h
      split_ifs at h with h0 h1
      injection h with he
      subst he
      exact ⟨h0, h1⟩

theorem pyFalsy_eq_false_iff (x : Option String) :
    pyFalsy x = false ↔ x ≠ none ∧ x ≠ some "" := by
  cases x with
  | none => simp [pyFalsy]
  | some s => simp [pyFalsy]

/-! ### Lemmas about the resolver's string primitives -/

theorem pyStrip_subset (l : List Char) : ∀ c ∈ pyStrip l, c ∈ l := by
  intro c hc
  simp only [pyStrip, List.mem_reverse] at hc
  have h2 : c ∈ (l.dropWhile pyIsSpace).reverse := (List.dropWhile_sublist _).subset hc
  rw [List.mem_reverse] at h2
  exact (List.dropWhile_sublist _).subset h2

theorem pyStrip_length_le (l : List Char) : (pyStrip l).length ≤ l.length := by
  simp only [pyStrip, List.length_reverse]
  calc ((l.dropWhile pyIsSpace).reverse.dropWhile pyIsSpace).length
      ≤ (l.dropWhile pyIsSpace).reverse.length := (List.dropWhile_sublist _).length_le
    _ = (l.dropWhile pyIsSpace).length := List.length_reverse _
    _ ≤ l.length := (List.dropWhile_sublist _).length_le

theorem pySlice_subset (l : List Char) (a b : Nat) : ∀ c ∈ pySlice l a b, c ∈ l := by
  intro c hc
  exact (List.take_sublist _ _).subset ((List.drop_sublist _ _).subset hc)

theorem pySlice_length_le (l : List Char) (a b : Nat) :
    (pySlice l a b).length ≤ l.length := by
  simp only [pySlice, List.length_drop, List.length_take]
  omega

/-- The three facts the amended C4 needs about the fallback expression
`text.strip().upper()[:3]`, over the raw character list `l`. -/
theorem fallback_props (l : List Char) :
    ((pyUpper (pyStrip l)).take 3).length ≤ 3 ∧
      (∀ c ∈ (pyUpper (pyStrip l)).take 3, ∃ d ∈ l, c = Char.toUpper d) ∧
      (l.length < 3 → ((pyUpper (pyStrip l)).take 3).length < 3) := by
  refine ⟨List.length_take_le _ _, ?_, ?_⟩
  · intro c hc
    have hc' : c ∈ pyUpper (pyStrip l) := (List.take_sublist _ _).subset hc
    simp only [pyUpper, List.mem_map] at hc'
    obtain ⟨d, hd, rfl⟩ := hc'
    exact ⟨d, pyStrip_subset l d hd, rfl⟩
  · intro h
    have h2 : (pyStrip l).length ≤ l.length := pyStrip_length_le l
    simp only [List.length_take, pyUpper, List.length_map]
    omega

/-! ### Claim theorems -/

/-- C1: for every input sequence of raw offers, with `maxStops = 0`
every normalized output offer has `stops = 0`, and with `maxStops = 1`
every normalized output offer has `stops ≤ 1` (offers with 2 or more
stops are discarded). -/
theorem normalize_max_stops_filter (offers : List RawOffer) :
    (∀ o ∈ normalize offers 0, o.stops = 0) ∧
      (∀ o ∈ normalize offers 1, o.stops ≤ 1) := by
  constructor <;> intro o ho <;> rw [normalize, List.mem_filterMap] at ho <;>
    obtain ⟨r, -, hr⟩ := ho
  · have h := (normalizeOffer_stops_bound 0 r o hr).1
    have h' : ¬ o.stops > 0 := fun hgt => h ⟨rfl, hgt⟩
    omega
  · have h := (normalizeOffer_stops_bound 1 r o hr).2
    have h' : ¬ o.stops > 1 := fun hgt => h ⟨rfl, hgt⟩
    omega

theorem normalize_max_stops_filter_witness : sampleFlight.stops = 0 :=
  (normalize_max_stops_filter [sampleRaw]).1 sampleFlight (by decide)

/-- C2: normalization produces no output record for a raw offer with
zero itineraries, or whose first itinerary has zero segments; such an
offer is silently skipped from the output, never an error. -/
theorem normalize_skips_malformed (ms : Int) (offer : RawOffer) (l1 l2 : List RawOffer)
    (h : offer.itineraries = [] ∨
      ∃ it its, offer.itineraries = it :: its ∧ it.segments = []) :
    normalizeOffer ms offer = none ∧
      normalize (l1 ++ offer :: l2) ms = normalize (l1 ++ l2) ms := by
  have hnone : normalizeOffer ms offer = none := by
    rcases h with h | ⟨it, its, hit, hseg⟩
    · unfold normalizeOffer; rw [h]
    · unfold normalizeOffer; rw [hit]; dsimp only; rw [hseg]
  exact ⟨hnone, by simp [normalize, List.filterMap_append, List.filterMap_cons, hnone]⟩

theorem normalize_skips_malformed_witness :
    normalizeOffer 0 emptyRaw = none ∧
      normalize ([sampleRaw] ++ emptyRaw :: [sampleRaw]) 0
        = normalize ([sampleRaw] ++ [sampleRaw]) 0 :=
  normalize_skips_malformed 0 emptyRaw [sampleRaw] [sampleRaw] (Or.inl rfl)

/-- C3: for every well-formed duration token "PT{h}H{m}M" with nonempty
decimal digit runs for h and m, the parser returns h + m/60 rounded to
2 decimal places; in particular "PT10H30M" gives 10.5, "PT45M" gives
0.75, and "" and "bogus" give an absent value. -/
theorem parse_duration_well_formed (hs ms : List Char)
    (hhne : hs ≠ []) (hmne : ms ≠ [])
    (hhd : ∀ c ∈ hs, c.isDigit = true) (hmd : ∀ c ∈ ms, c.isDigit = true) :
    parse_duration_to_hours ⟨'P' :: 'T' :: (hs ++ 'H' :: ms ++ ['M'])⟩
        = some (round2 ((digitsToNat hs : ℚ) + (digitsToNat ms : ℚ) / 60))
    ∧ parse_duration_to_hours "PT10H30M" = some (21 / 2)
    ∧ parse_duration_to_hours "PT45M" = some (3 / 4)
    ∧ parse_duration_to_hours "" = none
    ∧ parse_duration_to_hours "bogus" = none := by
  refine ⟨?_, ?_, ?_, by decide, by decide⟩
  · have hloop : durLoop (hs ++ 'H' :: (ms ++ ['M'])) [] 0 0
        = (digitsToNat hs, digitsToNat ms) := by
      rw [durLoop_digit_run hs hhd, List.nil_append, durLoop_H hs hhne,
        durLoop_digit_run ms hmd, List.nil_append, durLoop_M ms hmne]
      rfl
    simp [parse_duration_to_hours, hloop]
  · have h : durLoop ['1', '0', 'H', '3', '0', 'M'] [] 0 0 = (10, 30) := by decide
    simp [parse_duration_to_hours, round2, h]
    norm_num [round_eq]
  · have h : durLoop ['4', '5', 'M'] [] 0 0 = (0, 45) := by decide
    simp [parse_duration_to_hours, round2, h]
    norm_num [round_eq]

theorem parse_duration_well_formed_witness :
    parse_duration_to_hours ⟨'P' :: 'T' :: (['2'] ++ 'H' :: ['6'] ++ ['M'])⟩
      = some (round2 ((digitsToNat ['2'] : ℚ) + (digitsToNat ['6'] : ℚ) / 60)) :=
  (parse_duration_well_formed ['2'] ['6'] (by decide) (by decide)
    (by decide) (by decide)).1

/-- C4, counterexample: on the input "12" the resolver returns "12",
which neither has length 3 nor consists of uppercase alphabetic
characters, refuting the claim that every input yields a code of
exactly 3 uppercase alphabetic characters. -/
theorem extract_iata_not_three_alpha :
    ¬ ((extract_iata "12").length = 3 ∧
        ∀ c ∈ (extract_iata "12").data, c.isUpper = true) := by
  intro ⟨hlen, _⟩
  exact absurd hlen (by decide)

/-- C4, amended: for every input string the resolver deterministically
returns a string of at most 3 characters, every character of which is
the uppercased image of a character of the input (so uppercase where
alphabetic, but not necessarily alphabetic); and when the stripped
input has fewer than 3 characters the result has fewer than 3. -/
theorem extract_iata_le_three_uppercased (s : String) :
    (extract_iata s).length ≤ 3 ∧
      (∀ c ∈ (extract_iata s).data, ∃ d ∈ s.data, c = Char.toUpper d) ∧
      ((pyStrip s.data).length < 3 → (extract_iata s).length < 3) := by
  unfold extract_iata
  dsimp only
  split
  · rename_i start0 endIdx heq1 heq2
    split_ifs with hlen
    · refine ⟨?_, ?_, ?_⟩
      · simp [String.length, pyUpper, hlen]
      · intro c hc
        simp only [pyUpper, List.mem_map] at hc
        obtain ⟨d, hd, rfl⟩ := hc
        exact ⟨d, pyStrip_subset s.data d
          (pySlice_subset (pyStrip s.data) (start0 + 1) endIdx d
            (pyStrip_subset (pySlice (pyStrip s.data) (start0 + 1) endIdx) d hd)), rfl⟩
      · intro hst
        exfalso
        have h1 : (pyStrip (pySlice (pyStrip s.data) (start0 + 1) endIdx)).length
            ≤ (pyStrip s.data).length :=
          le_trans (pyStrip_length_le _) (pySlice_length_le _ _ _)
        omega
    · refine ⟨(fallback_props (pyStrip s.data)).1, ?_, ?_⟩
      · intro c hc
        obtain ⟨d, hd, rfl⟩ := (fallback_props (pyStrip s.data)).2.1 c hc
        exact ⟨d, pyStrip_subset s.data d hd, rfl⟩
      · exact (fallback_props (pyStrip s.data)).2.2
  · refine ⟨(fallback_props (pyStrip s.data)).1, ?_, ?_⟩
    · intro c hc
      obtain ⟨d, hd, rfl⟩ := (fallback_props (pyStrip s.data)).2.1 c hc
      exact ⟨d, pyStrip_subset s.data d hd, rfl⟩
    · exact (fallback_props (pyStrip s.data)).2.2

theorem extract_iata_le_three_uppercased_witness :
    (pyStrip ("12" : String).data).length < 3 ∧ (extract_iata "12").length < 3 :=
  ⟨by decide, (extract_iata_le_three_uppercased "12").2.2 (by decide)⟩

/-- C5: when the client identifier or the client secret is not
configured, the token call fails with the configuration error message
whatever the network does (the environment's token response is
arbitrary), so before and independent of any network call. -/
theorem get_token_config_error (env : Env)
    (h : pyFalsy env.amadeusClientId = true ∨ pyFalsy env.amadeusClientSecret = true) :
    get_amadeus_access_token env = .error ⟨.amadeusError, configErrorMsg⟩ := by
  unfold get_amadeus_access_token
  rcases h with h | h <;> simp [h]

theorem get_token_config_error_witness :
    get_amadeus_access_token envNoCreds = .error ⟨.amadeusError, configErrorMsg⟩ :=
  get_token_config_error envNoCreds (Or.inl rfl)

/-- C6: the built query always carries `adults = 1`, the fixed currency
"AUD" and the fixed maximum 20; the "non-stop only" flag is present
exactly when `maxStops = 0`; the return-date parameter is present
exactly when a return date is given, nonempty, and different from the
departure date (so an equal return date is treated as absent). -/
theorem buildSearchParams_query_shape (o d dep : String) (ret : Option String) (ms : Int) :
    (buildSearchParams o d dep ret ms).adults = 1 ∧
    (buildSearchParams o d dep ret ms).currencyCode = "AUD" ∧
    (buildSearchParams o d dep ret ms).max = 20 ∧
    ((buildSearchParams o d dep ret ms).nonStop = some "true" ↔ ms = 0) ∧
    ((buildSearchParams o d dep ret ms).returnDate ≠ none ↔
      ret ≠ none ∧ ret ≠ some "" ∧ ret ≠ some dep) := by
  refine ⟨rfl, rfl, rfl, ?_, ?_⟩
  · unfold buildSearchParams
    dsimp only
    split_ifs with h <;> simp [h]
  · unfold buildSearchParams
    dsimp only
    split_ifs with h
    · obtain ⟨h1, h2⟩ := h
      rw [pyFalsy_eq_false_iff] at h1
      simp [h1.1, h1.2, h2]
    · rw [not_and_or, pyFalsy_eq_false_iff] at h
      simp only [ne_eq, not_not] at h ⊢
      rcases h with h | h
      · rw [not_and_or] at h
        simp only [not_not] at h
        tauto
      · tauto

theorem buildSearchParams_query_shape_witness :
    (buildSearchParams "SYD" "ICN" "2026-01-01" (some "2026-01-01") 0).adults = 1 :=
  (buildSearchParams_query_shape "SYD" "ICN" "2026-01-01" (some "2026-01-01") 0).1

/-- C7: when the token is granted and the provider responds successfully
with an empty `data` array, the search returns the empty offer list, not
an error. -/
theorem search_empty_data_ok (env : Env) (oc dc dep : String)
    (ret : Option String) (ms : Int) (tok : String)
    (htok : get_amadeus_access_token env = .ok tok)
    (hnet : env.searchNet
        (buildSearchParams (extract_iata oc) (extract_iata dc) dep ret ms)
      = .ok { data := some [] }) :
    search_flights_amadeus env oc dc dep ret ms = .ok [] := by
  unfold search_flights_amadeus
  rw [htok]
  dsimp only
  rw [hnet]
  dsimp only
  rfl

theorem search_empty_data_ok_witness :
    search_flights_amadeus envEmptyData "Sydney (SYD)" "Seoul (ICN)"
      "2026-01-01" none 0 = .ok [] :=
  search_empty_data_ok envEmptyData "Sydney (SYD)" "Seoul (ICN)"
    "2026-01-01" none 0 "tok" rfl rfl

/-- C8: normalization preserves provider order: whenever raw offers `a`
and `b` are retained (normalized to `A` and `B`) and `a` appears before
`b` in the input, `A` appears before `B` in the output — filtering only
removes records, never reorders. -/
theorem normalize_preserves_order (ms : Int) (l1 l2 l3 : List RawOffer)
    (a b : RawOffer) (A B : FlightOffer)
    (ha : normalizeOffer ms a = some A) (hb : normalizeOffer ms b = some B) :
    normalize (l1 ++ a :: l2 ++ b :: l3) ms
      = normalize l1 ms ++ A :: (normalize l2 ms ++ B :: normalize l3 ms) := by
  simp [normalize, List.filterMap_append, List.filterMap_cons, ha, hb]

theorem normalize_preserves_order_witness :
    normalize ([] ++ sampleRaw :: [] ++ sampleRaw :: []) 0
      = normalize [] 0 ++ sampleFlight ::
          (normalize [] 0 ++ sampleFlight :: normalize [] 0) :=
  normalize_preserves_order 0 [] [] [] sampleRaw sampleRaw sampleFlight sampleFlight
    (by decide) (by decide)

/-- C9: the parser returns an absent value if and only if the input is
empty or does not begin with "PT", and for every input beginning with
"PT" it returns a numeric value (an unparseable duration yields absence,
never a failure). -/
theorem parse_duration_absent_iff (s : String) :
    (parse_duration_to_hours s = none ↔ s.data = [] ∨ s.data.take 2 ≠ ['P', 'T'])
    ∧ (s.data.take 2 = ['P', 'T'] → ∃ v, parse_duration_to_hours s = some v) := by
  constructor
  · unfold parse_duration_to_hours
    split_ifs with h <;> simp [h]
  · intro h
    unfold parse_duration_to_hours
    rw [if_neg]
    · exact ⟨_, rfl⟩
    · rintro (h0 | h1)
      · rw [h0] at h
        exact absurd h (by decide)
      · exact h1 h

theorem parse_duration_absent_iff_witness :
    ∃ v, parse_duration_to_hours "PTxx" = some v :=
  (parse_duration_absent_iff "PTxx").2 rfl

/-- C10: every failure the pipeline raises — missing credentials, token
exchange failure (transport, non-2xx, or missing access-token field),
and offer-search failure (transport or non-2xx) — carries the same
single exception class `AmadeusError`, so a caller cannot tell the
spec's ConfigurationError, UpstreamAuthError and UpstreamSearchError
apart by exception type alone. -/
theorem amadeus_single_exception_class :
    (∀ (env : Env) (e : PyExn),
      get_amadeus_access_token env = .error e → e.cls = .amadeusError)
    ∧ (∀ (env : Env) (oc dc dep : String) (ret : Option String) (ms : Int) (e : PyExn),
        search_flights_amadeus env oc dc dep ret ms = .error e → e.cls = .amadeusError) := by
  have htok : ∀ (env : Env) (e : PyExn),
      get_amadeus_access_token env = .error e → e.cls = .amadeusError := by
    intro env e h
    unfold get_amadeus_access_token at h
    split_ifs at h with h1
    · injection h with he
      rw [← he]
    · revert h
      cases env.tokenNet with
      | requestException m =>
        intro h
        injection h with he
        rw [← he]
      | ok payload =>
        dsimp only
        split_ifs with h2
        · intro h
          injection h with he
          rw [← he]
        · intro h
          exact h.elim
  refine ⟨htok, ?_⟩
  intro env oc dc dep ret ms e h
  unfold search_flights_amadeus at h
  revert h
  cases hg : get_amadeus_access_token env with
  | error e0 =>
    intro h
    injection h with he
    rw [← he]
    exact htok env e0 hg
  | ok tok =>
    dsimp only
    cases env.searchNet (buildSearchParams (extract_iata oc) (extract_iata dc) dep ret ms) with
    | requestException m =>
      intro h
      injection h with he
      rw [← he]
    | ok body =>
      intro h
      first
      | exact h.elim
      | exact Except.noConfusion h

theorem amadeus_single_exception_class_witness :
    (⟨ExnClass.amadeusError, configErrorMsg⟩ : PyExn).cls = ExnClass.amadeusError :=
  amadeus_single_exception_class.1 envNoCreds
    ⟨ExnClass.amadeusError, configErrorMsg⟩ rfl

end FlightSearch
